import Mathlib

/-!
Verification of the status-polling and request-construction logic of the
AWS example scripts (`rekognition` custom-labels scripts and
`bedrock-agent-runtime` flow scripts).

Each Python function that the claims refer to is embedded as a Lean
definition over explicit data:

* a remote `describe` call is modelled by one element of a list (finite
  execution trace) or by one value of a function `Nat → _` (infinite
  response sequence);
* a Python function outcome is a `PyResult`: normal return, raised
  generic `Exception`, raised/propagated `botocore` `ClientError`, or
  `pending` when the finite response trace ran out while the loop was
  still polling;
* `time.sleep` calls are recorded as `Event.sleep` entries of an event
  trace, remote describe calls as `Event.describe`.

All definitions are computable and follow the Python control flow of the
source files line by line.
-/

/-- A `botocore` `ClientError`, reduced to the fields the scripts read:
`err.response['Error']['Code']` and `err.response['Error']['Message']`. -/
structure ClientError where
  code : String
  message : String
deriving DecidableEq, Repr

/-- Outcome of running one of the Python functions on a finite trace of
remote responses: a normal return, a raised generic `Exception`, a raised
or propagated `ClientError`, or `pending` when the supplied finite trace
was exhausted while the polling loop was still running. -/
inductive PyResult (α : Type) where
  | returns (v : α)
  | raises (msg : String)
  | raisesClient (e : ClientError)
  | pending
deriving DecidableEq, Repr

/-- One observable action of a polling loop: a remote describe-style call,
or a `time.sleep` of the given whole number of seconds. -/
inductive Event where
  | describe
  | sleep (seconds : Nat)
deriving DecidableEq, Repr

/-- Response of `describe_dataset`: the `DatasetDescription` record with the
two fields the scripts read. -/
structure DatasetDescription where
  Status : String
  StatusMessage : String
deriving DecidableEq, Repr

/-- Response of `create_dataset`: the scripts read only `DatasetArn`. -/
structure CreateDatasetResponse where
  DatasetArn : String
deriving DecidableEq, Repr

/-- One element of `ProjectVersionDescriptions` in a
`describe_project_versions` response, with the two fields the scripts read. -/
structure ModelDescription where
  Status : String
  StatusMessage : String
deriving DecidableEq, Repr

/-! ### `custom_labels_start_model.py` / `custom_labels_stop_model.py`: `get_model_status` -/

/-- Embeds `get_model_status` of `custom_labels_start_model.py` (lines
17-41): iterate over `models['ProjectVersionDescriptions']` and `return
model["Status"]` inside the loop body, so the first element's status is
returned; after an empty loop, raise `Exception(f"Model {model_arn} not
found.")`. The request construction (version-name extraction from the ARN)
is not modelled; the function is applied directly to the response's
description list. -/
def get_model_status (model_arn : String) (descs : List ModelDescription) :
    PyResult String :=
  match descs with
  | m :: _ => .returns m.Status
  | [] => .raises ("Model " ++ model_arn ++ " not found.")

/-- Embeds `get_model_status` of `custom_labels_stop_model.py` (lines
20-43): identical control flow to the `start_model` variant; the raised
exception there is `Exception("Model %s not found.", model_arn)`, whose
unformatted format-string argument is used as the modelled message. -/
def get_model_status_stop (model_arn : String) (descs : List ModelDescription) :
    PyResult String :=
  match descs with
  | m :: _ => .returns m.Status
  | [] => .raises "Model %s not found."

/-! ### Dataset-creation polling loop

`custom_labels_create_dataset_manifest_file.py` (lines 46-71) and
`custom_labels_create_dataset_existing.py` (lines 45-70) contain the
verbatim-identical `while finished is False` loop over
`describe_dataset` statuses; it is embedded once. -/

/-- Outcome of the dataset-creation polling loop. -/
inductive PollOut where
  | complete
  | raised (msg : String)
  | pending
deriving DecidableEq, Repr

/-- Embeds the `while finished is False` loop of `create_dataset`
(manifest-file script, lines 46-71) and of
`create_dataset_from_existing_dataset` (lines 45-70), applied to the
sequence of statuses returned by successive `describe_dataset` calls.
Returns the event trace (describe calls and sleeps) together with the
loop outcome: `CREATE_IN_PROGRESS` sleeps 5 seconds and continues,
`CREATE_COMPLETE` sets `finished = True`, `CREATE_FAILED` and any other
status raise `Exception(error_message)`. -/
def createDatasetLoop (dataset_arn : String) : List String → List Event × PollOut
  | [] => ([], .pending)
  | s :: rest =>
    if s = "CREATE_IN_PROGRESS" then
      let r := createDatasetLoop dataset_arn rest
      (.describe :: .sleep 5 :: r.1, r.2)
    else if s = "CREATE_COMPLETE" then ([.describe], .complete)
    else if s = "CREATE_FAILED" then
      ([.describe], .raised ("Dataset creation failed: " ++ s ++ " : " ++ dataset_arn))
    else
      ([.describe], .raised ("Failed. Unexpected state for dataset creation: " ++ s ++ " : " ++ dataset_arn))

/-- The statuses a run of the dataset-creation loop actually observes: all
leading `CREATE_IN_PROGRESS` entries plus the first other status, if the
trace reaches one. -/
def observedStatuses : List String → List String
  | [] => []
  | s :: rest => s :: (if s = "CREATE_IN_PROGRESS" then observedStatuses rest else [])

/-- Embeds `create_dataset` of
`custom_labels_create_dataset_manifest_file.py` (lines 14-77) from the
point where the `create_dataset` response has been received: poll
`describe_dataset` until terminal and return `dataset_arn`, which was
assigned from `response['DatasetArn']`. -/
def create_dataset (response : CreateDatasetResponse) (statuses : List String) :
    PyResult String :=
  match (createDatasetLoop response.DatasetArn statuses).2 with
  | .complete => .returns response.DatasetArn
  | .raised m => .raises m
  | .pending => .pending

/-! ### `custom_labels_split_dataset.py`: `check_dataset_status` -/

/-- A `describe_dataset` call outcome: a successful response or a raised
`ClientError`. -/
inductive DescribeDataset where
  | ok (d : DatasetDescription)
  | clientError (e : ClientError)
deriving DecidableEq, Repr

/-- Embeds `check_dataset_status` of `custom_labels_split_dataset.py`
(lines 15-60). The function has no `try`/`except`, so a `ClientError`
raised by `describe_dataset` propagates. On `UPDATE_IN_PROGRESS` it
sleeps and continues; on `UPDATE_COMPLETE` and `UPDATE_FAILED` it ends the
loop and returns `(status, status_message)`; on any other status it ends
the loop and returns the status with a substituted generic message. It
never raises on a failed or unrecognized status. -/
def check_dataset_status (dataset_arn : String) :
    List DescribeDataset → PyResult (String × String)
  | [] => .pending
  | .clientError e :: _ => .raisesClient e
  | .ok d :: rest =>
    if d.Status = "UPDATE_IN_PROGRESS" then check_dataset_status dataset_arn rest
    else if d.Status = "UPDATE_COMPLETE" then .returns (d.Status, d.StatusMessage)
    else if d.Status = "UPDATE_FAILED" then .returns (d.Status, d.StatusMessage)
    else .returns (d.Status, "An unexpected error occurred while distributing the dataset")

/-! ### `custom_labels_copy_model.py`: `copy_model` -/

/-- A `describe_project_versions` call outcome for the copy/stop loops. -/
inductive DescribeVersions where
  | ok (descs : List ModelDescription)
  | clientError (e : ClientError)
deriving DecidableEq, Repr

/-- Embeds the `while finished is False` loop of `copy_model`
(`custom_labels_copy_model.py`, lines 52-78) applied to successive
`describe_project_versions` responses, recording describe calls and
60-second sleeps. The loop reads
`model_description["ProjectVersionDescriptions"][0]["Status"]`, so an
empty description list raises `IndexError` (uncaught: the function's
`except` clause only handles `ClientError`); `COPYING_IN_PROGRESS` sleeps
60 seconds and continues; every other status (including `COPYING_FAILED`
and unrecognized values) sets `finished = True` after which the `else`
clause returns `(destination_model_arn, status)` normally. A
`ClientError` is logged and re-raised. -/
def copyModelLoop (destination_model_arn : String) :
    List DescribeVersions → List Event × PyResult (String × String)
  | [] => ([], .pending)
  | .clientError e :: _ => ([.describe], .raisesClient e)
  | .ok [] :: _ => ([.describe], .raises "IndexError: list index out of range")
  | .ok (m :: _) :: rest =>
    if m.Status = "COPYING_IN_PROGRESS" then
      let r := copyModelLoop destination_model_arn rest
      (.describe :: .sleep 60 :: r.1, r.2)
    else ([.describe], .returns (destination_model_arn, m.Status))

/-- Embeds `copy_model` of `custom_labels_copy_model.py` (lines 13-78)
from the point where the `copy_project_version` response has been
received: `destination_model_arn` is `response["ProjectVersionArn"]` and
the polling loop decides the outcome. -/
def copy_model (destination_model_arn : String) (responses : List DescribeVersions) :
    PyResult (String × String) :=
  (copyModelLoop destination_model_arn responses).2

/-! ### `custom_labels_stop_model.py`: `stop_model` polling loop -/

/-- Embeds the `while finished is False` loop of `stop_model`
(`custom_labels_stop_model.py`, lines 62-84) applied to successive
`describe_project_versions` responses, recording describe calls and
10-second sleeps. Each iteration calls `get_model_status` (the
`stop_model.py` variant); `STOPPING` sleeps 10 seconds and continues,
`STOPPED` ends the loop and the status is returned, any other status
raises `Exception(error_message)`; the raise inside `get_model_status`
when no description is present also aborts the loop. A `ClientError` from
the describe call is caught by the surrounding `except`, logged, and
re-raised. -/
def stopModelLoop (model_arn : String) :
    List DescribeVersions → List Event × PyResult String
  | [] => ([], .pending)
  | .clientError e :: _ => ([.describe], .raisesClient e)
  | .ok descs :: rest =>
    match get_model_status_stop model_arn descs with
    | .returns st =>
      if st = "STOPPING" then
        let r := stopModelLoop model_arn rest
        (.describe :: .sleep 10 :: r.1, r.2)
      else if st = "STOPPED" then ([.describe], .returns st)
      else ([.describe], .raises ("Error stopping model. Unexepected state: " ++ st))
    | .raises m => ([.describe], .raises m)
    | .raisesClient e => ([.describe], .raisesClient e)
    | .pending => ([.describe], .pending)

/-! ### `custom_labels_delete_project.py`: `find_forward_slash` and the deletion loop -/

/-- Embeds Python `str.find(sub, start)` for a single-character needle:
the smallest index `i ≥ start` with `s[i] = c`, as an `Int`, or `-1` when
there is none. `base` is the absolute index of the head of the remaining
list. -/
def pyFindAux (c : Char) : List Char → Nat → Int
  | [], _ => -1
  | x :: xs, base => if x = c then Int.ofNat base else pyFindAux c xs (base + 1)

/-- Python `input_string.find(c, start)`. -/
def pyFind (s : List Char) (c : Char) (start : Nat) : Int :=
  pyFindAux c (s.drop start) start

/-- The `while position >= 0 and n > 1` loop of `find_forward_slash`,
unrolled on the number of remaining decrements of `n` (the loop body runs
at most `n - 1` times and stops early once `position` is negative). -/
def ffsGo (s : List Char) : Nat → Int → Int
  | 0, position => position
  | k + 1, position =>
    if position ≥ 0 then ffsGo s k (pyFind s '/' (position + 1).toNat)
    else position

/-- Embeds `find_forward_slash` of `custom_labels_delete_project.py`
(lines 23-33): `position = input_string.find('/')`, then while
`position >= 0 and n > 1` replace `position` by
`input_string.find('/', position + 1)` and decrement `n`; return
`position`. -/
def find_forward_slash (input_string : List Char) (n : Int) : Int :=
  ffsGo input_string (n - 1).toNat (pyFind input_string '/' 0)

/-- The zero-based indices of the occurrences of `c` in a list, offset by
the absolute index `base` of the list head. -/
def occIdx (c : Char) : List Char → Nat → List Nat
  | [], _ => []
  | x :: xs, base =>
    if x = c then base :: occIdx c xs (base + 1) else occIdx c xs (base + 1)

/-- The zero-based indices of all `'/'` occurrences in a string. -/
def slashIndices (s : List Char) : List Nat :=
  occIdx '/' s 0

/-! ### Generic polling-loop runner on infinite response sequences

The `while` loops of `create_dataset_from_existing_dataset`
(`custom_labels_create_dataset_existing.py`, lines 45-70) and of
`delete_project` (`custom_labels_delete_project.py`, lines 62-71) check
one describe response per iteration and continue exactly when the
response's continuation condition holds; there is no retry bound. A run
of such a loop on an infinite response sequence `f` is evaluated
step-indexed: `loopRun cont f fuel i` returns `some k` when, starting at
response index `i`, the loop exits within `fuel` iterations after
observing response `k` as the first non-continuing one; `none` means the
loop is still running after `fuel` iterations. -/

/-- Step-indexed evaluation of a `while` polling loop on an infinite
response sequence. -/
def loopRun {α : Type} (cont : α → Bool) (f : Nat → α) : Nat → Nat → Option Nat
  | 0, _ => none
  | fuel + 1, i => if cont (f i) then loopRun cont f fuel (i + 1) else some i

/-- Continuation condition of the dataset-creation loop: the body reaches
the next iteration exactly on status `CREATE_IN_PROGRESS` (every other
status sets `finished = True` or raises). -/
def createDatasetContinue (status : String) : Bool :=
  status == "CREATE_IN_PROGRESS"

/-- Continuation condition of the `delete_project` loop
(`custom_labels_delete_project.py`, lines 62-71): the loop continues
(sleeps 5 seconds and re-describes) exactly while
`len(project_descriptions) == 0` is false. -/
def deleteProjectContinue (project_descriptions : List String) : Bool :=
  !(project_descriptions.length == 0)

/-! ### Spacing of describe calls and sleeps in an event trace -/

/-- The spacing property claimed for a polling loop's event trace with
constant sleep duration `c`: between any two consecutive describe calls
exactly one sleep occurs, of duration `c` (so the second describe is two
positions after the first), and every sleep in the trace has duration
`c`. -/
def SleepsBetween (c : Nat) (t : List Event) : Prop :=
  (∀ i j : Nat, i < j → t[i]? = some Event.describe → t[j]? = some Event.describe →
      (∀ k : Nat, i < k → k < j → t[k]? ≠ some Event.describe) →
      j = i + 2 ∧ t[i + 1]? = some (Event.sleep c))
  ∧ (∀ (i : Nat) (n : Nat), t[i]? = some (Event.sleep n) → n = c)

/-- The shape every polling-loop event trace has: a run of
describe-then-sleep-`c` blocks, ending either with a final describe (the
iteration that observed a terminal or error status) or with a sleep (the
finite response trace ran out right after a sleep). -/
inductive PollTrace (c : Nat) : List Event → Prop
  | nil : PollTrace c []
  | last : PollTrace c [Event.describe]
  | step (t : List Event) : PollTrace c t →
      PollTrace c (Event.describe :: Event.sleep c :: t)

/-! ### JSON model

`custom_labels_create_dataset_existing.py` builds its `DatasetSource`
request parameter with `json.loads` applied to raw string concatenation;
`custom_labels_add_images_to_dataset.py` builds its `Changes` parameter
with `json.loads` applied to a `json.dumps` result. Python strings are
modelled as `List Char` (sequences of Unicode scalar values).
`json.dumps` of a string (default `ensure_ascii=True`) and the part of
`json.loads` these scripts exercise - a JSON object whose values are
strings, with strict rejection of raw control characters and of malformed
escapes - are embedded below. One deviation from CPython: `json.loads`
keeps a lone surrogate produced by a `\uXXXX` escape, which a `List Char`
of scalar values cannot represent, so the parser rejects it; no input
built by these scripts reaches that case. -/

/-- Lowercase hexadecimal digit, as produced by `json.dumps`. -/
def toHexDigit (m : Nat) : Char :=
  if m < 10 then Char.ofNat (48 + m) else Char.ofNat (87 + m)

/-- The four hex digits of a code unit `n < 0x10000`, most significant
first. -/
def toHex4 (n : Nat) : List Char :=
  [toHexDigit (n / 4096 % 16), toHexDigit (n / 256 % 16),
   toHexDigit (n / 16 % 16), toHexDigit (n % 16)]

/-- Value of one hexadecimal digit; `json.loads` accepts both cases. -/
def hexVal (c : Char) : Option Nat :=
  if '0' ≤ c ∧ c ≤ '9' then some (c.toNat - 48)
  else if 'a' ≤ c ∧ c ≤ 'f' then some (c.toNat - 87)
  else if 'A' ≤ c ∧ c ≤ 'F' then some (c.toNat - 55)
  else none

/-- Value of a four-digit hex escape body. -/
def hex4 (a b c d : Char) : Option Nat :=
  match hexVal a, hexVal b, hexVal c, hexVal d with
  | some x, some y, some z, some w => some (x * 4096 + y * 256 + z * 16 + w)
  | _, _, _, _ => none

/-- Encoding of one character inside a `json.dumps` string literal with
`ensure_ascii=True`: `"` and `\` get two-character escapes, the five
control characters with short escapes get those, every other character
below `0x20` and every character above `0x7E` gets `\uXXXX` escapes
(a surrogate pair above `0xFFFF`), and the printable ASCII range stands
for itself. -/
def encodeChar (c : Char) : List Char :=
  if c = '"' then ['\\', '"']
  else if c = '\\' then ['\\', '\\']
  else if c = Char.ofNat 8 then ['\\', 'b']
  else if c = Char.ofNat 9 then ['\\', 't']
  else if c = Char.ofNat 10 then ['\\', 'n']
  else if c = Char.ofNat 12 then ['\\', 'f']
  else if c = Char.ofNat 13 then ['\\', 'r']
  else if c.toNat < 0x20 then '\\' :: 'u' :: toHex4 c.toNat
  else if c.toNat ≤ 0x7E then [c]
  else if c.toNat < 0x10000 then '\\' :: 'u' :: toHex4 c.toNat
  else
    ('\\' :: 'u' :: toHex4 (0xD800 + (c.toNat - 0x10000) / 0x400)) ++
      ('\\' :: 'u' :: toHex4 (0xDC00 + (c.toNat - 0x10000) % 0x400))

/-- The escaped body of a `json.dumps` string literal. -/
def escapeList : List Char → List Char
  | [] => []
  | c :: cs => encodeChar c ++ escapeList cs

/-- `json.dumps` of a Python string with the default options: a quoted,
escaped string literal. -/
def dumps (s : List Char) : List Char :=
  '"' :: (escapeList s ++ ['"'])

/-- The simple two-character escapes accepted by `json.loads`. -/
def escChar (e : Char) : Option Char :=
  if e = '"' then some '"'
  else if e = '\\' then some '\\'
  else if e = '/' then some '/'
  else if e = 'b' then some (Char.ofNat 8)
  else if e = 'f' then some (Char.ofNat 12)
  else if e = 'n' then some (Char.ofNat 10)
  else if e = 'r' then some (Char.ofNat 13)
  else if e = 't' then some (Char.ofNat 9)
  else none

/-- Decoding of one escape sequence after its backslash, as read by
`json.loads`: a two-character escape, or a `\uXXXX` escape with
surrogate-pair combination. Unknown escapes, bad hex digits and unpaired
surrogate escapes are errors. Returns the decoded character and the
remaining input. -/
def parseEsc : List Char → Option (Char × List Char)
  | [] => none
  | e :: r2 =>
    if e = 'u' then
      match r2 with
      | h1 :: h2 :: h3 :: h4 :: r3 =>
        match hex4 h1 h2 h3 h4 with
        | none => none
        | some n =>
          if n < 0xD800 then some (Char.ofNat n, r3)
          else if n < 0xDC00 then
            match r3 with
            | '\\' :: 'u' :: k1 :: k2 :: k3 :: k4 :: r4 =>
              match hex4 k1 k2 k3 k4 with
              | none => none
              | some m =>
                if 0xDC00 ≤ m ∧ m < 0xE000 then
                  some (Char.ofNat (0x10000 + (n - 0xD800) * 0x400 + (m - 0xDC00)), r4)
                else none
            | _ => none
          else if n < 0xE000 then none
          else some (Char.ofNat n, r3)
      | _ => none
    else (escChar e).map fun ec => (ec, r2)

/-- Body of a JSON string literal after its opening quote, as read by
`json.loads` in strict mode, with an explicit recursion bound `fuel`
(each step consumes at least one character, so `fuel` at least the input
length is enough; see `parseStringBody`): plain characters up to the
closing quote, and escape sequences decoded by `parseEsc`; raw control
characters below `0x20` and a missing closing quote are errors. Returns
the decoded string and the input remaining after the closing quote. -/
def parseSB : Nat → List Char → Option (List Char × List Char)
  | 0, _ => none
  | _ + 1, [] => none
  | fuel + 1, c :: rest =>
    if c = '"' then some ([], rest)
    else if c = '\\' then
      match parseEsc rest with
      | none => none
      | some er => (parseSB fuel er.2).map fun p => (er.1 :: p.1, p.2)
    else if c.toNat < 0x20 then none
    else (parseSB fuel rest).map fun p => (c :: p.1, p.2)

/-- Body of a JSON string literal after its opening quote: `parseSB` run
with sufficient fuel. -/
def parseStringBody (xs : List Char) : Option (List Char × List Char) :=
  parseSB xs.length xs

/-- The four JSON whitespace characters. -/
def jsonWs (c : Char) : Bool :=
  c = ' ' || c = Char.ofNat 9 || c = Char.ofNat 10 || c = Char.ofNat 13

/-- Skip leading JSON whitespace. -/
def skipWs : List Char → List Char
  | [] => []
  | c :: rest => if jsonWs c then skipWs rest else c :: rest

/-- A parsed JSON object with string values, as an association list in
source order (the shape every `json.loads` input of these scripts has). -/
abbrev JsonObj := List (List Char × List Char)

/-- One `"key" : "value"` member of a JSON object; returns the pair and
the input remaining after the value's closing quote. -/
def parsePair (xs : List Char) : Option ((List Char × List Char) × List Char) :=
  match xs with
  | [] => none
  | c :: rest =>
    if c = '"' then
      (parseStringBody rest).bind fun kr =>
        match skipWs kr.2 with
        | [] => none
        | d :: r3 =>
          if d = ':' then
            match skipWs r3 with
            | [] => none
            | e :: r5 =>
              if e = '"' then
                (parseStringBody r5).bind fun vr => some ((kr.1, vr.1), vr.2)
              else none
          else none
    else none

/-- The members of a non-empty JSON object, starting at the first key's
opening quote; `fuel` bounds the number of members. Returns the members
and the input remaining after the closing brace. -/
def parseMembers : Nat → List Char → Option (JsonObj × List Char)
  | 0, _ => none
  | fuel + 1, xs =>
    (parsePair xs).bind fun kvr =>
      match skipWs kvr.2 with
      | [] => none
      | c :: r2 =>
        if c = ',' then
          (parseMembers fuel (skipWs r2)).bind fun msrem =>
            some (kvr.1 :: msrem.1, msrem.2)
        else if c = Char.ofNat 0x7D then some ([kvr.1], r2)
        else none

/-- `json.loads` restricted to its use in these scripts: a top-level JSON
object whose values are strings; any other input is a `JSONDecodeError`,
modelled as `none`. -/
def loads (xs : List Char) : Option JsonObj :=
  match skipWs xs with
  | [] => none
  | c :: r1 =>
    if c = Char.ofNat 0x7B then
      match skipWs r1 with
      | [] => none
      | d :: r2 =>
        if d = Char.ofNat 0x7D then
          if skipWs r2 = [] then some [] else none
        else
          (parseMembers (xs.length + 1) (d :: r2)).bind fun msrem =>
            if skipWs msrem.2 = [] then some msrem.1 else none
    else none

/-- A character that stands for itself inside a JSON string literal: not
the quote, not the backslash, not a control character below `0x20`. -/
def plainChar (c : Char) : Prop :=
  c ≠ '"' ∧ c ≠ '\\' ∧ 0x20 ≤ c.toNat

instance (c : Char) : Decidable (plainChar c) := by
  unfold plainChar
  infer_instance

/-! ### `custom_labels_create_dataset_existing.py`: request construction -/

/-- ASCII model of Python `str.upper()`, applied by
`create_dataset_from_existing_dataset` to `dataset_type`. -/
def pyUpper (s : List Char) : List Char :=
  s.map Char.toUpper

/-- The literal text `'{ "DatasetArn": "' + dataset_arn + '"}'` built by
`create_dataset_from_existing_dataset`
(`custom_labels_create_dataset_existing.py`, lines 33-35). -/
def datasetSourceText (dataset_arn : List Char) : List Char :=
  "\x7b \"DatasetArn\": \"".toList ++ dataset_arn ++ "\"\x7d".toList

/-- The keyword arguments of the `create_dataset` call issued by
`create_dataset_from_existing_dataset`
(`custom_labels_create_dataset_existing.py`, lines 37-39). -/
structure CreateDatasetCall where
  ProjectArn : List Char
  DatasetType : List Char
  DatasetSource : JsonObj
deriving DecidableEq, Repr

/-- Embeds the request construction of
`create_dataset_from_existing_dataset` (lines 27-39):
`dataset_type = dataset_type.upper()`, `dataset_source = json.loads(...)`
on the concatenated text, then the `create_dataset` call with
`ProjectArn`, `DatasetType` and `DatasetSource`; `none` models a raised
`JSONDecodeError`, in which case no call is made. -/
def create_dataset_existing_call (project_arn dataset_type dataset_arn : List Char) :
    Option CreateDatasetCall :=
  (loads (datasetSourceText dataset_arn)).map fun src =>
    ⟨project_arn, pyUpper dataset_type, src⟩

/-- Embeds `create_dataset_from_existing_dataset`
(`custom_labels_create_dataset_existing.py`, lines 15-77) end to end on a
finite trace: the request construction, then (given the
`create_dataset` response) the same polling loop as `create_dataset`,
returning the new `dataset_arn` taken from `response['DatasetArn']`. -/
def create_dataset_from_existing_dataset (dataset_arn : List Char)
    (response : CreateDatasetResponse) (statuses : List String) : PyResult String :=
  match loads (datasetSourceText dataset_arn) with
  | none => .raises "JSONDecodeError"
  | some _ =>
    match (createDatasetLoop response.DatasetArn statuses).2 with
    | .complete => .returns response.DatasetArn
    | .raised m => .raises m
    | .pending => .pending

/-! ### `custom_labels_add_images_to_dataset.py`: `Changes` construction -/

/-- Embeds the `Changes` construction of `update_dataset_entries`
(`custom_labels_add_images_to_dataset.py`, lines 31-41):
`json.loads('{ "GroundTruth" : ' + json.dumps(manifest_file) + '}')`,
where `manifest_file` is the full text of the local updates file; the
result is passed as the `Changes` keyword argument of the remote
`update_dataset_entries` operation. -/
def update_dataset_entries_changes (manifest_file : List Char) : Option JsonObj :=
  loads ("\x7b \"GroundTruth\" : ".toList ++ dumps manifest_file ++ "\x7d".toList)

/-! ### `bedrock-agent-runtime/flows`: `create_flow` and the two `prepare_flow` functions -/

/-- A flow-service response, reduced to the fields these scripts read via
`response.get`, which yields `None` for a missing key. -/
structure FlowResponse where
  id : Option String
  status : Option String
deriving DecidableEq, Repr

/-- The outcome of one call on the injected (or self-created) client: a
response or a raised `ClientError`. -/
abbrev FlowCall := Except ClientError FlowResponse

/-- Embeds `create_flow` of `flows/flow.py` (lines 23-64), applied to the
outcome of the one `client.create_flow` call it makes: on success the
response is returned; a `ClientError` is logged and re-raised unchanged
by `except ClientError as e: ... raise`. -/
def create_flow (call : FlowCall) : PyResult FlowResponse :=
  match call with
  | .ok response => .returns response
  | .error e => .raisesClient e

/-- The `while status == "Preparing"` loop of `prepare_flow` in
`flows/flow.py` (lines 92-101), applied to the current status and the
outcomes of the successive `client.get_flow` calls; any `ClientError` is
re-raised by the surrounding handler. Returns the final `status` value
(an `Option`, since `response.get('status')` can yield `None`). -/
def flowPrepareLoop (status : Option String) :
    List FlowCall → PyResult (Option String)
  | [] => if status = some "Preparing" then .pending else .returns status
  | call :: rest =>
    if status = some "Preparing" then
      match call with
      | .error e => .raisesClient e
      | .ok r => flowPrepareLoop r.status rest
    else .returns status

/-- Embeds `prepare_flow` of `flows/flow.py` (lines 70-118), applied to
the outcome of the initial `client.prepare_flow` call and the outcomes of
the subsequent `client.get_flow` polls: the loop runs while the status is
`Preparing`, the final status is returned, and a `ClientError` anywhere
inside the `try` block is logged and re-raised unchanged. -/
def flow_prepare_flow (first : FlowCall) (polls : List FlowCall) :
    PyResult (Option String) :=
  match first with
  | .error e => .raisesClient e
  | .ok r => flowPrepareLoop r.status polls

/-- The `while status == "Preparing"` loop of the standalone
`prepare_flow` in `flows/prepare_flow.py` (lines 31-39): each iteration
sleeps, calls `get_flow`, and rereads the status; the loop and the
initial call sit inside one `try`, whose `except ClientError` handler
prints a message and returns `None`, so a `ClientError` raised by
`get_flow` also results in a normal `None` return. After the loop the
last response is returned. -/
def preparePollLoop (response : FlowResponse) :
    List FlowCall → PyResult (Option FlowResponse)
  | [] =>
    if response.status = some "Preparing" then .pending else .returns (some response)
  | call :: rest =>
    if response.status = some "Preparing" then
      match call with
      | .error _ => .returns none
      | .ok r => preparePollLoop r rest
    else .returns (some response)

/-- Embeds the standalone `prepare_flow` of `flows/prepare_flow.py`
(lines 6-58): on a `ClientError` from any call inside the `try` block the
function prints a message chosen by the error code and returns `None`
(it does not re-raise); otherwise it polls while the status is
`Preparing` and returns the last response. -/
def prepare_flow_script (first : FlowCall) (polls : List FlowCall) :
    PyResult (Option FlowResponse) :=
  match first with
  | .error _ => .returns none
  | .ok r => preparePollLoop r polls

/-! ### `custom_labels_find_tags_in_model.py`: `find_tag_in_projects` -/

/-- One `Project`/`ModelVersion` record appended to `found_tags` by
`find_tag_in_projects`. -/
structure TagMatch where
  Project : String
  ModelVersion : String
deriving DecidableEq, Repr

/-- Whether a model version's `Tags` dictionary (modelled as an
association list with first-match lookup) contains `key` bound to
`value`: the Python test `key in tags["Tags"] and tags["Tags"][key] == value`. -/
def tagMatches (tags : List (String × String)) (key value : String) : Bool :=
  tags.lookup key == some value

/-- Embeds `find_tag_in_projects` of
`custom_labels_find_tags_in_model.py` (lines 18-72): `found_tags = []`,
then for each project of the `describe_projects` response and for each
model of that project's `describe_project_versions` response, append
`{"Project": ..., "ModelVersion": ...}` when the model's
`list_tags_for_resource` tags contain `key` bound to `value`; finally
return `found_tags`. `projects` lists the project ARNs in response order,
`versions` gives each project's model-version ARNs in response order,
`tags` gives each model version's tag dictionary. -/
def find_tag_in_projects (projects : List String)
    (versions : String → List String)
    (tags : String → List (String × String)) (key value : String) :
    List TagMatch :=
  projects.foldl
    (fun found_tags project =>
      (versions project).foldl
        (fun acc model =>
          if tagMatches (tags model) key value then
            acc ++ [⟨project, model⟩]
          else acc)
        found_tags)
    []

/-! ## Helper lemmas: JSON round trip -/

lemma parseSB_cons (fuel : Nat) (c : Char) (rest : List Char) :
    parseSB (fuel + 1) (c :: rest) =
      if c = '"' then some ([], rest)
      else if c = '\\' then
        match parseEsc rest with
        | none => none
        | some er => (parseSB fuel er.2).map fun p => (er.1 :: p.1, p.2)
      else if c.toNat < 0x20 then none
      else (parseSB fuel rest).map fun p => (c :: p.1, p.2) := rfl

lemma parseEsc_length (rest : List Char) (er : Char × List Char)
    (he : parseEsc rest = some er) : er.2.length < rest.length := by
  unfold parseEsc at he
  split at he
  · exact absurd he (by simp)
  · rename_i e r2
    split at he
    · split at he
      · rename_i h1 h2 h3 h4 r3
        split at he
        · exact absurd he (by simp)
        · split at he
          · simp at he
            subst he
            simp
            omega
          · split at he
            · split at he
              · rename_i k1 k2 k3 k4 r4
                split at he
                · exact absurd he (by simp)
                · split at he
                  · simp at he
                    subst he
                    simp
                    omega
                  · exact absurd he (by simp)
              · exact absurd he (by simp)
            · split at he
              · exact absurd he (by simp)
              · simp at he
                subst he
                simp
                omega
      · exact absurd he (by simp)
    · rcases hesc : escChar e with _ | ec
      · rw [hesc] at he
        exact absurd he (by simp)
      · rw [hesc] at he
        simp at he
        subst he
        simp

lemma parseSB_fuel (fuel : Nat) : ∀ xs : List Char, xs.length ≤ fuel →
    parseSB fuel xs = parseStringBody xs := by
  induction fuel using Nat.strong_induction_on with
  | _ fuel ih =>
    intro xs hlen
    match fuel, xs with
    | 0, [] => rfl
    | f + 1, [] => rfl
    | 0, c :: rest => simp at hlen
    | f + 1, c :: rest =>
      have hr : rest.length ≤ f := by simpa using hlen
      simp only [parseStringBody, List.length_cons, parseSB_cons]
      by_cases hq : c = '"'
      · simp [hq]
      · simp only [if_neg hq]
        by_cases hb : c = '\\'
        · simp only [if_pos hb]
          rcases he : parseEsc rest with _ | er
          · rfl
          · have hlt := parseEsc_length rest er he
            show Option.map (fun p => (er.1 :: p.1, p.2)) (parseSB f er.2)
                = Option.map (fun p => (er.1 :: p.1, p.2)) (parseSB rest.length er.2)
            rw [ih f (by omega) er.2 (by omega),
              ih rest.length (by omega) er.2 (by omega)]
        · simp only [if_neg hb]
          by_cases hc : c.toNat < 0x20
          · simp only [if_pos hc]
          · simp only [if_neg hc,
              ih f (by omega) rest (by omega),
              ih rest.length (by omega) rest (by omega)]

lemma parse_quote_step (xs : List Char) : parseStringBody ('"' :: xs) = some ([], xs) := rfl

lemma parse_plain_step (c : Char) (h : plainChar c) (xs : List Char) :
    parseStringBody (c :: xs) = (parseStringBody xs).map fun p => (c :: p.1, p.2) := by
  obtain ⟨h1, h2, h3⟩ := h
  simp only [parseStringBody, List.length_cons, parseSB_cons, if_neg h1, if_neg h2,
    if_neg (show ¬ c.toNat < 0x20 by omega)]

lemma parse_esc_step (rest r2 : List Char) (ec : Char) (he : parseEsc rest = some (ec, r2)) :
    parseStringBody ('\\' :: rest) = (parseStringBody r2).map fun p => (ec :: p.1, p.2) := by
  have hlt := parseEsc_length rest (ec, r2) he
  simp only [parseStringBody, List.length_cons, parseSB_cons,
    if_neg (show ¬ ('\\' : Char) = '"' by decide), if_pos (rfl : ('\\' : Char) = '\\'), he]
  show Option.map (fun p => (ec :: p.1, p.2)) (parseSB rest.length r2)
      = Option.map (fun p => (ec :: p.1, p.2)) (parseStringBody r2)
  rw [parseSB_fuel rest.length r2 (Nat.le_of_lt hlt)]


lemma hexVal_toHexDigit : ∀ m, m < 16 → hexVal (toHexDigit m) = some m := by decide

lemma hex4_toHex4 (n : Nat) (hn : n < 0x10000) :
    hex4 (toHexDigit (n / 4096 % 16)) (toHexDigit (n / 256 % 16))
      (toHexDigit (n / 16 % 16)) (toHexDigit (n % 16)) = some n := by
  simp only [hex4, hexVal_toHexDigit _ (Nat.mod_lt _ (by norm_num))]
  simp only [Option.some.injEq]
  omega

lemma parseEsc_u (h1 h2 h3 h4 : Char) (n : Nat) (hn : hex4 h1 h2 h3 h4 = some n)
    (hval : n < 0xD800 ∨ (0xDFFF < n ∧ n < 0x10000)) (xs : List Char) :
    parseEsc ('u' :: h1 :: h2 :: h3 :: h4 :: xs) = some (Char.ofNat n, xs) := by
  simp only [parseEsc, hn, if_true, eq_self_iff_true]
  rcases hval with hlow | ⟨hhi, hlt⟩
  · simp [hlow]
  · simp only [if_neg (show ¬ n < 0xD800 by omega), if_neg (show ¬ n < 0xDC00 by omega),
      if_neg (show ¬ n < 0xE000 by omega)]

lemma parseEsc_u_pair (a1 a2 a3 a4 b1 b2 b3 b4 : Char) (n m : Nat)
    (hn : hex4 a1 a2 a3 a4 = some n) (hm : hex4 b1 b2 b3 b4 = some m)
    (hnr : 0xD800 ≤ n ∧ n < 0xDC00) (hmr : 0xDC00 ≤ m ∧ m < 0xE000) (xs : List Char) :
    parseEsc ('u' :: a1 :: a2 :: a3 :: a4 :: '\\' :: 'u' :: b1 :: b2 :: b3 :: b4 :: xs)
      = some (Char.ofNat (0x10000 + (n - 0xD800) * 0x400 + (m - 0xDC00)), xs) := by
  simp only [parseEsc, hn, if_true, eq_self_iff_true,
    if_neg (show ¬ n < 0xD800 by omega), if_pos (show n < 0xDC00 by omega), hm,
    if_pos hmr]

example (tail : List Char) : parseStringBody (['\\', '"'] ++ tail)
    = (parseStringBody tail).map fun p => ('"' :: p.1, p.2) :=
  parse_esc_step _ tail '"' rfl

lemma char_valid_nat (c : Char) :
    c.toNat < 0xD800 ∨ (0xDFFF < c.toNat ∧ c.toNat < 0x110000) := by
  have h := c.valid
  rcases h with h | h
  · left
    exact h
  · right
    exact h

lemma parse_encode (c : Char) (tail : List Char) :
    parseStringBody (encodeChar c ++ tail)
      = (parseStringBody tail).map fun p => (c :: p.1, p.2) := by
  have hv := char_valid_nat c
  by_cases h1 : c = '"'
  · subst h1
    exact parse_esc_step _ tail '"' rfl
  by_cases h2 : c = '\\'
  · subst h2
    exact parse_esc_step _ tail '\\' rfl
  by_cases h3 : c = Char.ofNat 8
  · subst h3
    exact parse_esc_step _ tail (Char.ofNat 8) rfl
  by_cases h4 : c = Char.ofNat 9
  · subst h4
    exact parse_esc_step _ tail (Char.ofNat 9) rfl
  by_cases h5 : c = Char.ofNat 10
  · subst h5
    exact parse_esc_step _ tail (Char.ofNat 10) rfl
  by_cases h6 : c = Char.ofNat 12
  · subst h6
    exact parse_esc_step _ tail (Char.ofNat 12) rfl
  by_cases h7 : c = Char.ofNat 13
  · subst h7
    exact parse_esc_step _ tail (Char.ofNat 13) rfl
  by_cases h8 : c.toNat < 0x20
  · rw [show encodeChar c = '\\' :: 'u' :: toHex4 c.toNat by
      simp only [encodeChar, if_neg h1, if_neg h2, if_neg h3, if_neg h4, if_neg h5,
        if_neg h6, if_neg h7, if_pos h8]]
    simp only [toHex4, List.cons_append, List.nil_append]
    rw [parse_esc_step _ tail (Char.ofNat c.toNat)
      (parseEsc_u _ _ _ _ c.toNat (hex4_toHex4 c.toNat (by omega)) (by omega) tail)]
    rw [Char.ofNat_toNat]
  by_cases h9 : c.toNat ≤ 0x7E
  · rw [show encodeChar c = [c] by
      simp only [encodeChar, if_neg h1, if_neg h2, if_neg h3, if_neg h4, if_neg h5,
        if_neg h6, if_neg h7, if_neg h8, if_pos h9]]
    exact parse_plain_step c ⟨h1, h2, by omega⟩ tail
  by_cases h10 : c.toNat < 0x10000
  · rw [show encodeChar c = '\\' :: 'u' :: toHex4 c.toNat by
      simp only [encodeChar, if_neg h1, if_neg h2, if_neg h3, if_neg h4, if_neg h5,
        if_neg h6, if_neg h7, if_neg h8, if_neg h9, if_pos h10]]
    simp only [toHex4, List.cons_append, List.nil_append]
    rw [parse_esc_step _ tail (Char.ofNat c.toNat)
      (parseEsc_u _ _ _ _ c.toNat (hex4_toHex4 c.toNat (by omega)) (by omega) tail)]
    rw [Char.ofNat_toNat]
  · rw [show encodeChar c =
        ('\\' :: 'u' :: toHex4 (0xD800 + (c.toNat - 0x10000) / 0x400)) ++
          ('\\' :: 'u' :: toHex4 (0xDC00 + (c.toNat - 0x10000) % 0x400)) by
      simp only [encodeChar, if_neg h1, if_neg h2, if_neg h3, if_neg h4, if_neg h5,
        if_neg h6, if_neg h7, if_neg h8, if_neg h9, if_neg h10]]
    simp only [toHex4, List.cons_append, List.nil_append, List.append_assoc]
    rw [parse_esc_step _ tail _
      (parseEsc_u_pair _ _ _ _ _ _ _ _
        (0xD800 + (c.toNat - 0x10000) / 0x400) (0xDC00 + (c.toNat - 0x10000) % 0x400)
        (hex4_toHex4 _ (by omega)) (hex4_toHex4 _ (by omega))
        (by omega) (by omega) tail)]
    have hc : 0x10000 + ((0xD800 + (c.toNat - 0x10000) / 0x400) - 0xD800) * 0x400 +
        ((0xDC00 + (c.toNat - 0x10000) % 0x400) - 0xDC00) = c.toNat := by
      omega
    rw [hc, Char.ofNat_toNat]

lemma parse_escape_all (s : List Char) (xs : List Char) :
    parseStringBody (escapeList s ++ '"' :: xs) = some (s, xs) := by
  induction s with
  | nil => rfl
  | cons c cs ih =>
    rw [show escapeList (c :: cs) = encodeChar c ++ escapeList cs from rfl,
      List.append_assoc, parse_encode, ih]
    rfl

lemma parse_plain_chars (pre : List Char) (h : ∀ c ∈ pre, plainChar c) (xs : List Char) :
    parseStringBody (pre ++ '"' :: xs) = some (pre, xs) := by
  induction pre with
  | nil => rfl
  | cons c cs ih =>
    have hc := h c (List.mem_cons_self c cs)
    have hcs : ∀ x ∈ cs, plainChar x := fun x hx => h x (List.mem_cons_of_mem c hx)
    rw [List.cons_append, parse_plain_step c hc, ih hcs]
    rfl

lemma skipWs_space (xs : List Char) : skipWs (' ' :: xs) = skipWs xs := rfl

lemma skipWs_not (c : Char) (h : jsonWs c = false) (xs : List Char) :
    skipWs (c :: xs) = c :: xs := by
  simp only [skipWs, h]
  rfl

lemma skipWs_nil : skipWs [] = [] := rfl

lemma parsePair_eq (kb rest1 rest2 vb rest3 : List Char) (key val : List Char)
    (hk : parseStringBody kb = some (key, rest1))
    (h1 : skipWs rest1 = ':' :: rest2)
    (h2 : skipWs rest2 = '"' :: vb)
    (hv : parseStringBody vb = some (val, rest3)) :
    parsePair ('"' :: kb) = some ((key, val), rest3) := by
  simp [parsePair, hk, h1, h2, hv]

lemma loads_one (xs r1 kb r2 r3 : List Char) (kv : List Char × List Char)
    (hx : skipWs xs = Char.ofNat 0x7B :: r1)
    (hr : skipWs r1 = '"' :: kb)
    (hp : parsePair ('"' :: kb) = some (kv, r2))
    (h2 : skipWs r2 = Char.ofNat 0x7D :: r3)
    (h3 : skipWs r3 = []) :
    loads xs = some [kv] := by
  simp [loads, hx, hr, hp, h2, h3, parseMembers]

theorem update_changes_exact (s : List Char) :
    update_dataset_entries_changes s = some [("GroundTruth".toList, s)] := by
  unfold update_dataset_entries_changes
  refine loads_one _
    (" \"GroundTruth\" : ".toList ++ dumps s ++ "\x7d".toList)
    ("GroundTruth\" : ".toList ++ dumps s ++ "\x7d".toList)
    "\x7d".toList [] ("GroundTruth".toList, s) rfl rfl ?_ rfl rfl
  refine parsePair_eq _ (" : ".toList ++ dumps s ++ "\x7d".toList)
    (" ".toList ++ dumps s ++ "\x7d".toList)
    ((escapeList s ++ ['"']) ++ "\x7d".toList)
    "\x7d".toList "GroundTruth".toList s
    ?_ rfl rfl ?_
  · exact parse_plain_chars "GroundTruth".toList (by decide) _
  · rw [List.append_assoc]
    exact parse_escape_all s _

theorem create_dataset_existing_call_exact (project_arn dataset_type dataset_arn : List Char)
    (h : ∀ c ∈ dataset_arn, plainChar c) :
    create_dataset_existing_call project_arn dataset_type dataset_arn
      = some ⟨project_arn, pyUpper dataset_type, [("DatasetArn".toList, dataset_arn)]⟩ := by
  have hl : loads ("\x7b \"DatasetArn\": \"".toList ++ dataset_arn ++ "\"\x7d".toList)
      = some [("DatasetArn".toList, dataset_arn)] := by
    refine loads_one _
      (" \"DatasetArn\": \"".toList ++ dataset_arn ++ "\"\x7d".toList)
      ("DatasetArn\": \"".toList ++ dataset_arn ++ "\"\x7d".toList)
      "\x7d".toList [] ("DatasetArn".toList, dataset_arn) rfl rfl ?_ rfl rfl
    refine parsePair_eq _ (": \"".toList ++ dataset_arn ++ "\"\x7d".toList)
      (" \"".toList ++ dataset_arn ++ "\"\x7d".toList)
      (dataset_arn ++ "\"\x7d".toList)
      "\x7d".toList "DatasetArn".toList dataset_arn ?_ rfl rfl ?_
    · exact parse_plain_chars "DatasetArn".toList (by decide) _
    · exact parse_plain_chars dataset_arn h _
  unfold create_dataset_existing_call datasetSourceText
  rw [hl]
  rfl

/-! ## Helper lemmas: polling loops, traces, and string search -/

lemma pollTrace_sleeps (c : Nat) (t : List Event) (h : PollTrace c t) :
    ∀ (i : Nat) (n : Nat), t[i]? = some (Event.sleep n) → n = c := by
  induction h with
  | nil =>
    intro i n hi
    simp at hi
  | last =>
    intro i n hi
    match i with
    | 0 => simp at hi
    | i + 1 => simp at hi
  | step t ht ih =>
    intro i n hi
    match i with
    | 0 => simp at hi
    | 1 =>
      simp at hi
      exact hi.symm
    | i + 2 =>
      simp only [List.getElem?_cons_succ] at hi
      exact ih i n hi

lemma pollTrace_head (c : Nat) (t : List Event) (h : PollTrace c t) :
    t = [] ∨ t[0]? = some Event.describe := by
  cases h with
  | nil => left; rfl
  | last => right; rfl
  | step t ht => right; rfl

lemma pollTrace_between (c : Nat) (t : List Event) (h : PollTrace c t) :
    ∀ i j : Nat, i < j → t[i]? = some Event.describe → t[j]? = some Event.describe →
      (∀ k : Nat, i < k → k < j → t[k]? ≠ some Event.describe) →
      j = i + 2 ∧ t[i + 1]? = some (Event.sleep c) := by
  induction h with
  | nil =>
    intro i j hij hi hj hk
    simp at hi
  | last =>
    intro i j hij hi hj hk
    match i, j, hij with
    | 0, j + 1, _ => simp at hj
  | step t ht ih =>
    intro i j hij hi hj hk
    match i, j, hij with
    | 0, 1, _ => simp at hj
    | 0, 2, _ =>
      exact ⟨rfl, by simp⟩
    | 0, j + 3, _ =>
      exfalso
      have h2 : (Event.describe :: Event.sleep c :: t)[2]? = some Event.describe := by
        rcases pollTrace_head c t ht with hnil | hd
        · subst hnil
          simp at hj
        · simpa using hd
      exact hk 2 (by omega) (by omega) h2
    | 1, j + 2, _ => simp at hi
    | i + 2, j + 3, _ =>
      simp only [List.getElem?_cons_succ] at hi hj
      have hk' : ∀ k : Nat, i < k → k < j + 1 → t[k]? ≠ some Event.describe := by
        intro k hk1 hk2 hkd
        exact hk (k + 2) (by omega) (by omega) (by simpa using hkd)
      obtain ⟨he, hs⟩ := ih i (j + 1) (by omega) hi hj hk'
      refine ⟨by omega, by simpa using hs⟩

lemma createDatasetLoop_pollTrace (arn : String) (sts : List String) :
    PollTrace 5 (createDatasetLoop arn sts).1 := by
  induction sts with
  | nil => exact PollTrace.nil
  | cons s rest ih =>
    by_cases h1 : s = "CREATE_IN_PROGRESS"
    · simp only [createDatasetLoop, if_pos h1]
      exact PollTrace.step _ ih
    · by_cases h2 : s = "CREATE_COMPLETE"
      · simp only [createDatasetLoop, if_neg h1, if_pos h2]
        exact PollTrace.last
      · by_cases h3 : s = "CREATE_FAILED"
        · simp only [createDatasetLoop, if_neg h1, if_neg h2, if_pos h3]
          exact PollTrace.last
        · simp only [createDatasetLoop, if_neg h1, if_neg h2, if_neg h3]
          exact PollTrace.last

lemma stopModelLoop_pollTrace (arn : String) (rs : List DescribeVersions) :
    PollTrace 10 (stopModelLoop arn rs).1 := by
  induction rs with
  | nil => exact PollTrace.nil
  | cons r rest ih =>
    match r with
    | .clientError e => exact PollTrace.last
    | .ok descs =>
      match descs with
      | [] => exact PollTrace.last
      | m :: ms =>
        by_cases h1 : m.Status = "STOPPING"
        · simp only [stopModelLoop, get_model_status_stop, if_pos h1]
          exact PollTrace.step _ ih
        · by_cases h2 : m.Status = "STOPPED"
          · simp only [stopModelLoop, get_model_status_stop, if_neg h1, if_pos h2]
            exact PollTrace.last
          · simp only [stopModelLoop, get_model_status_stop, if_neg h1, if_neg h2]
            exact PollTrace.last

lemma copyModelLoop_pollTrace (arn : String) (rs : List DescribeVersions) :
    PollTrace 60 (copyModelLoop arn rs).1 := by
  induction rs with
  | nil => exact PollTrace.nil
  | cons r rest ih =>
    match r with
    | .clientError e => exact PollTrace.last
    | .ok [] => exact PollTrace.last
    | .ok (m :: ms) =>
      by_cases h1 : m.Status = "COPYING_IN_PROGRESS"
      · simp only [copyModelLoop, if_pos h1]
        exact PollTrace.step _ ih
      · simp only [copyModelLoop, if_neg h1]
        exact PollTrace.last

lemma pollTrace_sleepsBetween (c : Nat) (t : List Event) (h : PollTrace c t) :
    SleepsBetween c t :=
  ⟨pollTrace_between c t h, pollTrace_sleeps c t h⟩

lemma createLoop_complete_last (arn : String) (sts : List String)
    (h : (createDatasetLoop arn sts).2 = PollOut.complete) :
    (observedStatuses sts).getLast? = some "CREATE_COMPLETE" := by
  induction sts with
  | nil => simp [createDatasetLoop] at h
  | cons s rest ih =>
    by_cases h1 : s = "CREATE_IN_PROGRESS"
    · simp only [createDatasetLoop, if_pos h1] at h
      have hlast := ih h
      simp only [observedStatuses, if_pos h1]
      match hob : observedStatuses rest with
      | [] =>
        rw [hob] at hlast
        simp at hlast
      | x :: xs =>
        rw [hob] at hlast
        rw [List.getLast?_cons_cons]
        exact hlast
    · by_cases h2 : s = "CREATE_COMPLETE"
      · simp only [observedStatuses, if_neg h1]
        simp [h2]
      · by_cases h3 : s = "CREATE_FAILED"
        · simp only [createDatasetLoop, if_neg h1, if_neg h2, if_pos h3] at h
          simp at h
        · simp only [createDatasetLoop, if_neg h1, if_neg h2, if_neg h3] at h
          simp at h

lemma createLoop_first_other (arn : String) (pre : List String)
    (hpre : ∀ x ∈ pre, x = "CREATE_IN_PROGRESS") (s : String) (rest : List String)
    (h1 : s ≠ "CREATE_IN_PROGRESS") (h2 : s ≠ "CREATE_COMPLETE") :
    ∃ msg, (createDatasetLoop arn (pre ++ s :: rest)).2 = PollOut.raised msg := by
  induction pre with
  | nil =>
    by_cases h3 : s = "CREATE_FAILED"
    · exact ⟨"Dataset creation failed: " ++ s ++ " : " ++ arn, by
        simp only [List.nil_append, createDatasetLoop, if_neg h1, if_neg h2, if_pos h3]⟩
    · exact ⟨"Failed. Unexpected state for dataset creation: " ++ s ++ " : " ++ arn, by
        simp only [List.nil_append, createDatasetLoop, if_neg h1, if_neg h2, if_neg h3]⟩
  | cons x xs ih =>
    have hx := hpre x (List.mem_cons_self x xs)
    obtain ⟨msg, hmsg⟩ := ih fun y hy => hpre y (List.mem_cons_of_mem x hy)
    refine ⟨msg, ?_⟩
    simp only [List.cons_append, createDatasetLoop, if_pos hx]
    exact hmsg

lemma check_status_first_other (arn : String) (pres : List DescribeDataset)
    (hpre : ∀ x ∈ pres, ∃ d, x = DescribeDataset.ok d ∧ d.Status = "UPDATE_IN_PROGRESS")
    (d : DatasetDescription) (rest : List DescribeDataset)
    (h1 : d.Status ≠ "UPDATE_IN_PROGRESS") :
    check_dataset_status arn (pres ++ DescribeDataset.ok d :: rest)
      = PyResult.returns (d.Status,
          if d.Status = "UPDATE_COMPLETE" ∨ d.Status = "UPDATE_FAILED" then d.StatusMessage
          else "An unexpected error occurred while distributing the dataset") := by
  induction pres with
  | nil =>
    by_cases h2 : d.Status = "UPDATE_COMPLETE"
    · simp only [List.nil_append, check_dataset_status, if_neg h1, if_pos h2]
      simp [h2]
    · by_cases h3 : d.Status = "UPDATE_FAILED"
      · simp only [List.nil_append, check_dataset_status, if_neg h1, if_neg h2, if_pos h3]
        simp [h3]
      · simp only [List.nil_append, check_dataset_status, if_neg h1, if_neg h2, if_neg h3]
        simp [h2, h3]
  | cons x xs ih =>
    obtain ⟨dx, rfl, hdx⟩ := hpre x (List.mem_cons_self x xs)
    have ihx := ih fun y hy => hpre y (List.mem_cons_of_mem _ hy)
    simp only [List.cons_append, check_dataset_status, if_pos hdx]
    exact ihx

lemma copy_model_first_other (arn : String) (rs : List DescribeVersions)
    (hpre : ∀ r ∈ rs, ∃ m ms, r = DescribeVersions.ok (m :: ms) ∧ m.Status = "COPYING_IN_PROGRESS")
    (d : ModelDescription) (ds : List ModelDescription) (rest : List DescribeVersions)
    (h1 : d.Status ≠ "COPYING_IN_PROGRESS") :
    copy_model arn (rs ++ DescribeVersions.ok (d :: ds) :: rest)
      = PyResult.returns (arn, d.Status) := by
  induction rs with
  | nil =>
    simp only [List.nil_append, copy_model, copyModelLoop, if_neg h1]
  | cons r rest' ih =>
    obtain ⟨m, ms, rfl, hm⟩ := hpre r (List.mem_cons_self r rest')
    have ihx := ih fun y hy => hpre y (List.mem_cons_of_mem _ hy)
    simp only [List.cons_append, copy_model, copyModelLoop, if_pos hm]
    simpa [copy_model] using ihx

lemma loopRun_forever {α : Type} (cont : α → Bool) (f : Nat → α)
    (h : ∀ n, cont (f n) = true) : ∀ fuel i, loopRun cont f fuel i = none := by
  intro fuel
  induction fuel with
  | zero => intro i; rfl
  | succ k ih =>
    intro i
    simp only [loopRun, h i, if_true]
    exact ih (i + 1)

lemma loopRun_first_exit {α : Type} (cont : α → Bool) (f : Nat → α) (k : Nat)
    (hk : cont (f k) = false) (hpre : ∀ i, i < k → cont (f i) = true) :
    ∀ fuel i, i ≤ k → k - i < fuel → loopRun cont f fuel i = some k := by
  intro fuel
  induction fuel with
  | zero =>
    intro i hik hf
    omega
  | succ n ih =>
    intro i hik hf
    by_cases hi : i = k
    · subst hi
      simp only [loopRun, hk]
      rfl
    · have hlt : i < k := by omega
      simp only [loopRun, hpre i hlt, if_true]
      exact ih (i + 1) (by omega) (by omega)

lemma occIdx_ge (c : Char) (l : List Char) (base : Nat) :
    ∀ i ∈ occIdx c l base, base ≤ i := by
  induction l generalizing base with
  | nil => intro i hi; simp [occIdx] at hi
  | cons x xs ih =>
    intro i hi
    by_cases hx : x = c
    · simp only [occIdx, if_pos hx] at hi
      rcases List.mem_cons.mp hi with h | h
      · omega
      · have := ih (base + 1) i h
        omega
    · simp only [occIdx, if_neg hx] at hi
      have := ih (base + 1) i hi
      omega

lemma pyFindAux_head (c : Char) (l : List Char) (base : Nat) :
    pyFindAux c l base = match occIdx c l base with
      | [] => -1
      | i :: _ => Int.ofNat i := by
  induction l generalizing base with
  | nil => rfl
  | cons x xs ih =>
    by_cases hx : x = c
    · simp only [pyFindAux, occIdx, if_pos hx]
    · simp only [pyFindAux, occIdx, if_neg hx]
      exact ih (base + 1)

lemma occIdx_tail (c : Char) (l : List Char) (base : Nat) (i : Nat) (rest : List Nat)
    (h : occIdx c l base = i :: rest) :
    occIdx c (l.drop (i + 1 - base)) (i + 1) = rest := by
  induction l generalizing base with
  | nil => simp [occIdx] at h
  | cons x xs ih =>
    by_cases hx : x = c
    · simp only [occIdx, if_pos hx] at h
      injection h with h1 h2
      subst h1
      have hd : base + 1 - base = 1 := by omega
      rw [hd, List.drop_succ_cons, List.drop_zero]
      exact h2
    · simp only [occIdx, if_neg hx] at h
      have hge : base + 1 ≤ i := occIdx_ge c xs (base + 1) i (h ▸ List.mem_cons_self i rest)
      have hd : i + 1 - base = (i - base) + 1 := by omega
      rw [hd, List.drop_succ_cons]
      have hd2 : i - base = i + 1 - (base + 1) := by omega
      rw [hd2]
      exact ih (base + 1) h

lemma ffsGo_spec (s : List Char) : ∀ (k start : Nat),
    ffsGo s k (pyFind s '/' start) =
      match (occIdx '/' (s.drop start) start)[k]? with
      | some i => Int.ofNat i
      | none => -1 := by
  intro k
  induction k with
  | zero =>
    intro start
    rw [show ffsGo s 0 (pyFind s '/' start) = pyFind s '/' start from rfl,
      pyFind, pyFindAux_head]
    match occIdx '/' (s.drop start) start with
    | [] => rfl
    | i :: rest => simp
  | succ k ih =>
    intro start
    rcases hocc : occIdx '/' (s.drop start) start with _ | ⟨i, rest⟩
    · rw [show pyFind s '/' start = pyFindAux '/' (s.drop start) start from rfl,
        pyFindAux_head, hocc]
      rfl
    · have hpos : pyFind s '/' start = Int.ofNat i := by
        rw [show pyFind s '/' start = pyFindAux '/' (s.drop start) start from rfl,
          pyFindAux_head, hocc]
      have hge : start ≤ i := occIdx_ge _ _ _ i (hocc ▸ List.mem_cons_self i rest)
      rw [hpos]
      have hstep : ffsGo s (k + 1) (Int.ofNat i)
          = ffsGo s k (pyFind s '/' ((Int.ofNat i + 1)).toNat) := by
        simp [ffsGo]
      rw [hstep]
      have htn : ((Int.ofNat i + 1)).toNat = i + 1 := rfl
      rw [htn, ih (i + 1)]
      have hdrop : occIdx '/' (s.drop (i + 1)) (i + 1) = rest := by
        have h2 := occIdx_tail '/' (s.drop start) start i rest hocc
        rwa [List.drop_drop, show start + (i + 1 - start) = i + 1 from by omega] at h2
      rw [hdrop]
      simp

lemma foldl_filter_append {α β : Type} (q : α → Bool) (g : α → β) :
    ∀ (L : List α) (acc : List β),
      L.foldl (fun acc2 mv => if q mv then acc2 ++ [g mv] else acc2) acc
        = acc ++ (L.filter q).map g := by
  intro L
  induction L with
  | nil =>
    intro acc
    simp
  | cons x xs ih =>
    intro acc
    by_cases hx : q x
    · simp [List.foldl_cons, hx, ih, List.filter_cons]
    · simp [List.foldl_cons, hx, ih, List.filter_cons]

lemma find_tag_eq (projects : List String) (versions : String → List String)
    (tags : String → List (String × String)) (key value : String) :
    find_tag_in_projects projects versions tags key value
      = projects.flatMap fun p =>
          ((versions p).filter fun mv => tagMatches (tags mv) key value).map
            fun mv => TagMatch.mk p mv := by
  have houter : ∀ (ps : List String) (acc : List TagMatch),
      ps.foldl (fun found p =>
          (versions p).foldl (fun acc2 mv =>
            if tagMatches (tags mv) key value then acc2 ++ [⟨p, mv⟩] else acc2) found) acc
        = acc ++ ps.flatMap fun p =>
            ((versions p).filter fun mv => tagMatches (tags mv) key value).map
              fun mv => TagMatch.mk p mv := by
    intro ps
    induction ps with
    | nil =>
      intro acc
      simp
    | cons p ps ih =>
      intro acc
      rw [List.foldl_cons, foldl_filter_append, ih]
      simp
  simpa [find_tag_in_projects] using houter projects []

lemma flowPrepareLoop_error (e : ClientError) :
    ∀ (pre : List FlowResponse), (∀ r ∈ pre, r.status = some "Preparing") →
    ∀ (status : Option String), status = some "Preparing" →
    ∀ (rest : List FlowCall),
    flowPrepareLoop status (pre.map Except.ok ++ Except.error e :: rest)
      = PyResult.raisesClient e := by
  intro pre
  induction pre with
  | nil =>
    intro _ status hs rest
    simp only [List.map_nil, List.nil_append, flowPrepareLoop, if_pos hs]
  | cons r pre' ih =>
    intro hpre status hs rest
    have hr := hpre r (List.mem_cons_self r pre')
    simp only [List.map_cons, List.cons_append, flowPrepareLoop, if_pos hs]
    exact ih (fun x hx => hpre x (List.mem_cons_of_mem r hx)) r.status hr rest

lemma preparePollLoop_error (e : ClientError) :
    ∀ (pre : List FlowResponse), (∀ r ∈ pre, r.status = some "Preparing") →
    ∀ (response : FlowResponse), response.status = some "Preparing" →
    ∀ (rest : List FlowCall),
    preparePollLoop response (pre.map Except.ok ++ Except.error e :: rest)
      = PyResult.returns none := by
  intro pre
  induction pre with
  | nil =>
    intro _ response hs rest
    simp only [List.map_nil, List.nil_append, preparePollLoop, if_pos hs]
  | cons r pre' ih =>
    intro hpre response hs rest
    have hr := hpre r (List.mem_cons_self r pre')
    simp only [List.map_cons, List.cons_append, preparePollLoop, if_pos hs]
    exact ih (fun x hx => hpre x (List.mem_cons_of_mem r hx)) r hr rest

/-- Claim C1, counterexample to the claim as stated: `check_dataset_status`
is a status-polling wrapper, `UPDATE_FAILED` is its known failed terminal
value, yet on observing it the function returns normally (with the status
pair) instead of raising. -/
theorem claim_C1_counterexample :
    check_dataset_status "arn:test"
        [DescribeDataset.ok ⟨"UPDATE_FAILED", "manifest error"⟩]
      = PyResult.returns ("UPDATE_FAILED", "manifest error") := by
  rfl

/-- Claim C1, amended: the dataset-creation wrappers raise a generic error
on a failed or unrecognized status, but `check_dataset_status` and
`copy_model` end their loops and return normally on such a status
(`check_dataset_status` substituting a generic message for an
unrecognized status, `copy_model` returning the ARN-status pair). -/
theorem claim_C1 :
    (∀ (response : CreateDatasetResponse) (pre : List String) (s : String)
        (rest : List String),
      (∀ x ∈ pre, x = "CREATE_IN_PROGRESS") → s ≠ "CREATE_IN_PROGRESS" →
      s ≠ "CREATE_COMPLETE" →
      ∃ msg, create_dataset response (pre ++ s :: rest) = PyResult.raises msg)
    ∧ (∀ (dataset_arn : List Char) (response : CreateDatasetResponse)
        (pre : List String) (s : String) (rest : List String),
      (∀ x ∈ pre, x = "CREATE_IN_PROGRESS") → s ≠ "CREATE_IN_PROGRESS" →
      s ≠ "CREATE_COMPLETE" →
      ∃ msg, create_dataset_from_existing_dataset dataset_arn response (pre ++ s :: rest)
        = PyResult.raises msg)
    ∧ (∀ (arn : String) (pres : List DescribeDataset) (d : DatasetDescription)
        (rest : List DescribeDataset),
      (∀ x ∈ pres, ∃ dd, x = DescribeDataset.ok dd ∧ dd.Status = "UPDATE_IN_PROGRESS") →
      d.Status ≠ "UPDATE_IN_PROGRESS" →
      check_dataset_status arn (pres ++ DescribeDataset.ok d :: rest)
        = PyResult.returns (d.Status,
            if d.Status = "UPDATE_COMPLETE" ∨ d.Status = "UPDATE_FAILED" then d.StatusMessage
            else "An unexpected error occurred while distributing the dataset"))
    ∧ (∀ (arn : String) (rs : List DescribeVersions) (d : ModelDescription)
        (ds : List ModelDescription) (rest : List DescribeVersions),
      (∀ r ∈ rs, ∃ m ms, r = DescribeVersions.ok (m :: ms) ∧ m.Status = "COPYING_IN_PROGRESS") →
      d.Status ≠ "COPYING_IN_PROGRESS" →
      copy_model arn (rs ++ DescribeVersions.ok (d :: ds) :: rest)
        = PyResult.returns (arn, d.Status)) := by
  refine ⟨?_, ?_, ?_, ?_⟩
  · intro response pre s rest hpre h1 h2
    obtain ⟨msg, hm⟩ := createLoop_first_other response.DatasetArn pre hpre s rest h1 h2
    exact ⟨msg, by unfold create_dataset; rw [hm]⟩
  · intro dataset_arn response pre s rest hpre h1 h2
    rcases hl : loads (datasetSourceText dataset_arn) with _ | src
    · exact ⟨"JSONDecodeError", by unfold create_dataset_from_existing_dataset; rw [hl]⟩
    · obtain ⟨msg, hm⟩ := createLoop_first_other response.DatasetArn pre hpre s rest h1 h2
      exact ⟨msg, by unfold create_dataset_from_existing_dataset; rw [hl, hm]⟩
  · intro arn pres d rest hpre h1
    exact check_status_first_other arn pres hpre d rest h1
  · intro arn rs d ds rest hpre h1
    exact copy_model_first_other arn rs hpre d ds rest h1

/-- Claim C1, witness: concrete runs through each wrapper at the first
failed status. -/
theorem claim_C1_witness :
    (∃ msg, create_dataset ⟨"d-arn"⟩ (["CREATE_IN_PROGRESS"] ++ "CREATE_FAILED" :: [])
      = PyResult.raises msg)
    ∧ (∃ msg, create_dataset_from_existing_dataset "src-arn".toList ⟨"d-arn"⟩
        ([] ++ "WEIRD" :: []) = PyResult.raises msg)
    ∧ check_dataset_status "a" ([] ++ DescribeDataset.ok ⟨"UPDATE_FAILED", "m"⟩ :: [])
        = PyResult.returns ("UPDATE_FAILED",
            if ("UPDATE_FAILED" : String) = "UPDATE_COMPLETE" ∨ ("UPDATE_FAILED" : String) = "UPDATE_FAILED"
            then "m" else "An unexpected error occurred while distributing the dataset")
    ∧ copy_model "m-arn" ([] ++ DescribeVersions.ok (⟨"COPYING_FAILED", "sm"⟩ :: []) :: [])
        = PyResult.returns ("m-arn", "COPYING_FAILED") := by
  refine ⟨?_, ?_, ?_, ?_⟩
  · exact claim_C1.1 ⟨"d-arn"⟩ ["CREATE_IN_PROGRESS"] "CREATE_FAILED" []
      (by decide) (by decide) (by decide)
  · exact claim_C1.2.1 "src-arn".toList ⟨"d-arn"⟩ [] "WEIRD" []
      (by decide) (by decide) (by decide)
  · exact claim_C1.2.2.1 "a" [] ⟨"UPDATE_FAILED", "m"⟩ [] (by simp) (by decide)
  · exact claim_C1.2.2.2 "m-arn" [] ⟨"COPYING_FAILED", "sm"⟩ [] [] (by simp) (by decide)

/-- Claim C2, counterexample to the claim as stated: the standalone
`prepare_flow` of `flows/prepare_flow.py` is a library-style wrapper
function, yet when the client call raises a `ClientError` it prints a
message and returns `None` instead of re-raising, so the caller does not
see the error. -/
theorem claim_C2_counterexample :
    prepare_flow_script (Except.error ⟨"ResourceNotFoundException", "Flow not found"⟩) []
      = PyResult.returns none
    ∧ prepare_flow_script (Except.error ⟨"ResourceNotFoundException", "Flow not found"⟩) []
      ≠ PyResult.raisesClient ⟨"ResourceNotFoundException", "Flow not found"⟩ := by
  exact ⟨rfl, by decide⟩

/-- Claim C2, amended: wrapper functions that take the client as an
argument (`create_flow` and `prepare_flow` of `flows/flow.py`) log a
`ClientError` and re-raise it unchanged, whether it arises on the first
call or during polling; the standalone `prepare_flow` of
`flows/prepare_flow.py`, which creates its own client, instead prints a
message and returns `None` in both situations. -/
theorem claim_C2 :
    (∀ e : ClientError, create_flow (Except.error e) = PyResult.raisesClient e)
    ∧ (∀ (e : ClientError) (polls : List FlowCall),
        flow_prepare_flow (Except.error e) polls = PyResult.raisesClient e)
    ∧ (∀ (e : ClientError) (polls : List FlowCall),
        prepare_flow_script (Except.error e) polls = PyResult.returns none)
    ∧ (∀ (e : ClientError) (first : FlowResponse), first.status = some "Preparing" →
        ∀ (pre : List FlowResponse), (∀ r ∈ pre, r.status = some "Preparing") →
        ∀ (rest : List FlowCall),
        flow_prepare_flow (Except.ok first) (pre.map Except.ok ++ Except.error e :: rest)
          = PyResult.raisesClient e
        ∧ prepare_flow_script (Except.ok first) (pre.map Except.ok ++ Except.error e :: rest)
          = PyResult.returns none) := by
  refine ⟨fun e => rfl, fun e polls => rfl, fun e polls => rfl, ?_⟩
  intro e first hfirst pre hpre rest
  constructor
  · show flowPrepareLoop first.status (pre.map Except.ok ++ Except.error e :: rest)
      = PyResult.raisesClient e
    exact flowPrepareLoop_error e pre hpre first.status hfirst rest
  · show preparePollLoop first (pre.map Except.ok ++ Except.error e :: rest)
      = PyResult.returns none
    exact preparePollLoop_error e pre hpre first hfirst rest

/-- Claim C2, witness: a concrete error on the first call and a concrete
error after one in-progress poll. -/
theorem claim_C2_witness :
    create_flow (Except.error ⟨"AccessDeniedException", "denied"⟩)
      = PyResult.raisesClient ⟨"AccessDeniedException", "denied"⟩
    ∧ (flow_prepare_flow (Except.ok ⟨some "f1", some "Preparing"⟩)
        ([⟨some "f1", some "Preparing"⟩].map Except.ok
          ++ Except.error ⟨"ThrottlingException", "slow down"⟩ :: [])
        = PyResult.raisesClient ⟨"ThrottlingException", "slow down"⟩
      ∧ prepare_flow_script (Except.ok ⟨some "f1", some "Preparing"⟩)
          ([⟨some "f1", some "Preparing"⟩].map Except.ok
            ++ Except.error ⟨"ThrottlingException", "slow down"⟩ :: [])
          = PyResult.returns none) := by
  refine ⟨claim_C2.1 _, ?_⟩
  exact claim_C2.2.2.2 ⟨"ThrottlingException", "slow down"⟩ ⟨some "f1", some "Preparing"⟩
    (by decide) [⟨some "f1", some "Preparing"⟩] (by decide) []

/-- Claim C3 (confirmed): if a dataset-creation wrapper returns normally,
the last status it observed was `CREATE_COMPLETE` and the returned value
is the `DatasetArn` of the `create_dataset` response. -/
theorem claim_C3 :
    (∀ (response : CreateDatasetResponse) (statuses : List String) (arn : String),
      create_dataset response statuses = PyResult.returns arn →
      arn = response.DatasetArn
        ∧ (observedStatuses statuses).getLast? = some "CREATE_COMPLETE")
    ∧ (∀ (dataset_arn : List Char) (response : CreateDatasetResponse)
        (statuses : List String) (arn : String),
      create_dataset_from_existing_dataset dataset_arn response statuses
          = PyResult.returns arn →
      arn = response.DatasetArn
        ∧ (observedStatuses statuses).getLast? = some "CREATE_COMPLETE") := by
  constructor
  · intro response statuses arn h
    unfold create_dataset at h
    rcases hp : (createDatasetLoop response.DatasetArn statuses).2 with _ | msg | _
    · rw [hp] at h
      injection h with h1
      exact ⟨h1.symm, createLoop_complete_last _ _ hp⟩
    · rw [hp] at h
      simp at h
    · rw [hp] at h
      simp at h
  · intro dataset_arn response statuses arn h
    unfold create_dataset_from_existing_dataset at h
    rcases hl : loads (datasetSourceText dataset_arn) with _ | src
    · rw [hl] at h
      simp at h
    · rw [hl] at h
      rcases hp : (createDatasetLoop response.DatasetArn statuses).2 with _ | msg | _
      · rw [hp] at h
        injection h with h1
        exact ⟨h1.symm, createLoop_complete_last _ _ hp⟩
      · rw [hp] at h
        simp at h
      · rw [hp] at h
        simp at h

/-- Claim C3, witness: a concrete successful run of each wrapper. -/
theorem claim_C3_witness :
    ("new-arn" = (⟨"new-arn"⟩ : CreateDatasetResponse).DatasetArn
      ∧ (observedStatuses ["CREATE_IN_PROGRESS", "CREATE_COMPLETE"]).getLast?
          = some "CREATE_COMPLETE")
    ∧ ("e-arn" = (⟨"e-arn"⟩ : CreateDatasetResponse).DatasetArn
      ∧ (observedStatuses ["CREATE_COMPLETE"]).getLast? = some "CREATE_COMPLETE") := by
  constructor
  · exact claim_C3.1 ⟨"new-arn"⟩ ["CREATE_IN_PROGRESS", "CREATE_COMPLETE"] "new-arn" (by decide)
  · exact claim_C3.2 "src".toList ⟨"e-arn"⟩ ["CREATE_COMPLETE"] "e-arn" (by decide)

/-- Claim C4 (confirmed): on an always-in-progress response sequence the
polling loops of `create_dataset_from_existing_dataset` and
`delete_project` never exit, whatever step bound is used (no maximum
retry count); and when some response is the first non-continuing one, the
loop exits exactly there. -/
theorem claim_C4 :
    (∀ f : Nat → String, (∀ n, createDatasetContinue (f n) = true) →
      ∀ fuel i, loopRun createDatasetContinue f fuel i = none)
    ∧ (∀ (f : Nat → String) (k : Nat), createDatasetContinue (f k) = false →
      (∀ i, i < k → createDatasetContinue (f i) = true) →
      ∀ fuel, k < fuel → loopRun createDatasetContinue f fuel 0 = some k)
    ∧ (∀ g : Nat → List String, (∀ n, deleteProjectContinue (g n) = true) →
      ∀ fuel i, loopRun deleteProjectContinue g fuel i = none)
    ∧ (∀ (g : Nat → List String) (k : Nat), deleteProjectContinue (g k) = false →
      (∀ i, i < k → deleteProjectContinue (g i) = true) →
      ∀ fuel, k < fuel → loopRun deleteProjectContinue g fuel 0 = some k) := by
  refine ⟨?_, ?_, ?_, ?_⟩
  · exact fun f h => loopRun_forever _ f h
  · exact fun f k hk hpre fuel hf =>
      loopRun_first_exit _ f k hk hpre fuel 0 (by omega) (by omega)
  · exact fun g h => loopRun_forever _ g h
  · exact fun g k hk hpre fuel hf =>
      loopRun_first_exit _ g k hk hpre fuel 0 (by omega) (by omega)

/-- Claim C4, witness: an always-in-progress dataset run does not exit
within 50 steps, and a project that disappears at the fourth describe
makes the deletion loop exit at index 3. -/
theorem claim_C4_witness :
    loopRun createDatasetContinue (fun _ => "CREATE_IN_PROGRESS") 50 0 = none
    ∧ loopRun deleteProjectContinue (fun n => if n < 3 then ["p"] else []) 50 0 = some 3 := by
  constructor
  · exact claim_C4.1 (fun _ => "CREATE_IN_PROGRESS") (fun n => rfl) 50 0
  · exact claim_C4.2.2.2 (fun n => if n < 3 then ["p"] else []) 3 (by decide)
      (by decide) 50 (by omega)

/-- Claim C5, counterexample to the claim as stated: for a dataset ARN
containing a backslash escape, `json.loads` of the concatenated text
decodes the escape, so the `DatasetSource` passed to `create_dataset`
binds `DatasetArn` to a different string (a tab character replaces the
two characters backslash-`t`). -/
theorem claim_C5_counterexample :
    create_dataset_existing_call "p".toList "train".toList ['a', '\\', 't', 'b']
      = some ⟨"p".toList, "TRAIN".toList, [("DatasetArn".toList, ['a', Char.ofNat 9, 'b'])]⟩
    ∧ (create_dataset_existing_call "p".toList "train".toList ['a', '\\', 't', 'b']).map
        (fun call => call.DatasetSource)
      ≠ some [("DatasetArn".toList, ['a', '\\', 't', 'b'])] := by
  exact ⟨rfl, by decide⟩

/-- Claim C5, amended: for every dataset ARN made of characters that
stand for themselves in a JSON string literal (no quote, no backslash,
no control character below `0x20`), `create_dataset_from_existing_dataset`
passes `create_dataset` a `DatasetSource` equal to the one-field record
binding `DatasetArn` to exactly the supplied ARN string. -/
theorem claim_C5 (project_arn dataset_type dataset_arn : List Char)
    (h : ∀ c ∈ dataset_arn, plainChar c) :
    create_dataset_existing_call project_arn dataset_type dataset_arn
      = some ⟨project_arn, pyUpper dataset_type, [("DatasetArn".toList, dataset_arn)]⟩ :=
  create_dataset_existing_call_exact project_arn dataset_type dataset_arn h

/-- Claim C5, witness: a realistic ARN passes through unchanged. -/
theorem claim_C5_witness :
    create_dataset_existing_call "proj-arn".toList "train".toList
        "arn:aws:rekognition:us-east-1:123:project/p/dataset/train/1".toList
      = some ⟨"proj-arn".toList, pyUpper "train".toList,
          [("DatasetArn".toList,
            "arn:aws:rekognition:us-east-1:123:project/p/dataset/train/1".toList)]⟩ :=
  claim_C5 _ _ _ (by decide)

/-- Claim C6 (confirmed): `update_dataset_entries` embeds the exact
updates-file content string, unchanged, as the `GroundTruth` field of the
`Changes` payload: `json.dumps` escapes it and `json.loads` decodes it
back to the same string, for every content string. -/
theorem claim_C6 (manifest_file : List Char) :
    update_dataset_entries_changes manifest_file
      = some [("GroundTruth".toList, manifest_file)] :=
  update_changes_exact manifest_file

/-- Claim C7 (confirmed): in every run of the three cited polling loops,
consecutive describe calls are separated by exactly one sleep of the
script's constant duration (5 seconds for `create_dataset`, 10 for
`stop_model`, 60 for `copy_model`), and no sleep of any other duration
occurs. -/
theorem claim_C7 (dataset_arn model_arn destination_arn : String)
    (statuses : List String) (rs1 rs2 : List DescribeVersions) :
    SleepsBetween 5 (createDatasetLoop dataset_arn statuses).1
    ∧ SleepsBetween 10 (stopModelLoop model_arn rs1).1
    ∧ SleepsBetween 60 (copyModelLoop destination_arn rs2).1 :=
  ⟨pollTrace_sleepsBetween 5 _ (createDatasetLoop_pollTrace dataset_arn statuses),
   pollTrace_sleepsBetween 10 _ (stopModelLoop_pollTrace model_arn rs1),
   pollTrace_sleepsBetween 60 _ (copyModelLoop_pollTrace destination_arn rs2)⟩

/-- Claim C8 (confirmed): `find_forward_slash s n` returns the zero-based
index of the `n`-th `'/'` occurrence when `n ≥ 1` and at least `n`
occurrences exist, `-1` when `s` has fewer than `n` occurrences, and for
`n ≤ 1` the index of the first occurrence (or `-1` if there is none). -/
theorem claim_C8 (s : List Char) (n : Int) :
    (1 ≤ n → ∀ h : n.toNat - 1 < (slashIndices s).length,
      find_forward_slash s n = Int.ofNat ((slashIndices s).get ⟨n.toNat - 1, h⟩))
    ∧ ((slashIndices s).length < n → find_forward_slash s n = -1)
    ∧ (n ≤ 1 → find_forward_slash s n
        = match slashIndices s with
          | [] => -1
          | i :: _ => Int.ofNat i) := by
  have hbase : find_forward_slash s n
      = match (slashIndices s)[(n - 1).toNat]? with
        | some i => Int.ofNat i
        | none => -1 := by
    rw [show find_forward_slash s n = ffsGo s (n - 1).toNat (pyFind s '/' 0) from rfl,
      ffsGo_spec s (n - 1).toNat 0]
    rw [show occIdx '/' (s.drop 0) 0 = slashIndices s from rfl]
  refine ⟨?_, ?_, ?_⟩
  · intro h1 h
    have hidx : (n - 1).toNat = n.toNat - 1 := by omega
    rw [hbase, hidx, List.getElem?_eq_getElem h]
    simp [List.get_eq_getElem]
  · intro hlt
    have hge : (slashIndices s).length ≤ (n - 1).toNat := by omega
    rw [hbase, List.getElem?_eq_none hge]
  · intro h1
    have hidx : (n - 1).toNat = 0 := by omega
    rw [hbase, hidx]
    match slashIndices s with
    | [] => rfl
    | i :: rest => simp

/-- Claim C8, witness: on `"a/b/c"` the second slash is at index 3, a
fifth slash does not exist, and `n = 0` yields the first slash index. -/
theorem claim_C8_witness :
    find_forward_slash "a/b/c".toList 2 = 3
    ∧ find_forward_slash "a/b/c".toList 5 = -1
    ∧ find_forward_slash "a/b/c".toList 0 = 1 := by
  refine ⟨?_, ?_, ?_⟩
  · exact ((claim_C8 "a/b/c".toList 2).1 (by decide) (by decide)).trans (by decide)
  · exact (claim_C8 "a/b/c".toList 5).2.1 (by decide)
  · exact ((claim_C8 "a/b/c".toList 0).2.2 (by decide)).trans (by decide)

/-- Claim C9 (confirmed): `find_tag_in_projects` returns, in traversal
order, exactly the project/model-version pairs whose tag dictionary binds
the key to the value, and the empty list when nothing matches. -/
theorem claim_C9 (projects : List String) (versions : String → List String)
    (tags : String → List (String × String)) (key value : String) :
    find_tag_in_projects projects versions tags key value
      = (projects.flatMap fun p =>
          ((versions p).filter fun mv => tagMatches (tags mv) key value).map
            fun mv => TagMatch.mk p mv)
    ∧ ((∀ p ∈ projects, ∀ mv ∈ versions p, tagMatches (tags mv) key value = false) →
        find_tag_in_projects projects versions tags key value = []) := by
  refine ⟨find_tag_eq projects versions tags key value, ?_⟩
  intro hnone
  rw [find_tag_eq projects versions tags key value]
  apply List.flatMap_eq_nil_iff.mpr
  intro p hp
  rw [List.filter_eq_nil_iff.mpr fun mv hmv => by simp [hnone p hp mv hmv]]
  rfl

/-- Claim C9, witness: one matching model among two projects, and a
no-match query returning the empty list. -/
theorem claim_C9_witness :
    find_tag_in_projects ["p1", "p2"]
        (fun p => if p = "p1" then ["m1", "m2"] else ["m3"])
        (fun mv => if mv = "m2" then [("env", "prod")] else [("env", "dev")])
        "env" "prod"
      = (["p1", "p2"].flatMap fun p =>
          (((fun p => if p = "p1" then ["m1", "m2"] else ["m3"]) p).filter fun mv =>
            tagMatches ((fun mv => if mv = "m2" then [("env", "prod")] else [("env", "dev")]) mv)
              "env" "prod").map fun mv => TagMatch.mk p mv)
    ∧ find_tag_in_projects ["p1"] (fun _ => ["m1"]) (fun _ => [("k", "v")]) "env" "prod"
      = [] := by
  constructor
  · exact (claim_C9 ["p1", "p2"] _ _ "env" "prod").1
  · exact (claim_C9 ["p1"] (fun _ => ["m1"]) (fun _ => [("k", "v")]) "env" "prod").2
      (by decide)

/-- Claim C10 (confirmed): `get_model_status` (both the `start_model` and
`stop_model` variants) returns the `Status` of the first element of
`ProjectVersionDescriptions` when the list is non-empty, and raises an
exception instead of returning when it is empty. -/
theorem claim_C10 (model_arn : String) (descs : List ModelDescription) :
    (∀ m rest, descs = m :: rest →
      get_model_status model_arn descs = PyResult.returns m.Status
      ∧ get_model_status_stop model_arn descs = PyResult.returns m.Status)
    ∧ (descs = [] →
      (∃ msg, get_model_status model_arn descs = PyResult.raises msg)
      ∧ ∃ msg, get_model_status_stop model_arn descs = PyResult.raises msg) := by
  constructor
  · rintro m rest rfl
    exact ⟨rfl, rfl⟩
  · rintro rfl
    exact ⟨⟨"Model " ++ model_arn ++ " not found.", rfl⟩, ⟨"Model %s not found.", rfl⟩⟩

/-- Claim C10, witness: a one-element description list and the empty
list. -/
theorem claim_C10_witness :
    (get_model_status "m-arn" [⟨"RUNNING", "ok"⟩]
        = PyResult.returns (ModelDescription.mk "RUNNING" "ok").Status
      ∧ get_model_status_stop "m-arn" [⟨"RUNNING", "ok"⟩]
        = PyResult.returns (ModelDescription.mk "RUNNING" "ok").Status)
    ∧ ((∃ msg, get_model_status "m-arn" [] = PyResult.raises msg)
      ∧ ∃ msg, get_model_status_stop "m-arn" [] = PyResult.raises msg) := by
  constructor
  · exact (claim_C10 "m-arn" [⟨"RUNNING", "ok"⟩]).1 ⟨"RUNNING", "ok"⟩ [] rfl
  · exact (claim_C10 "m-arn" []).2 rfl
